import Mathlib

/-!
Shallow embedding of the inference/evaluation pipeline of the repository:
`maskrcnn_benchmark/engine/inference.py` and `maskrcnn_benchmark/listener/utils.py`.

Tensors are modelled by their value content plus a device tag:
* a 1-D tensor is a list of rationals with a device (`Tensor1`);
* a 2-D tensor is a list of rows with a device (`Tensor`).
`torch.Tensor.to(device)` changes only the device tag, `.t()` transposes a 2-D
tensor and is the identity on 1-D tensors, `.contiguous()` is the identity on
values.  Python dictionaries keyed by integers are modelled as association
lists with last-write-wins lookup.  A Python function that can raise an
uncaught exception is modelled as returning `Option` (`none` = exception).
Devices are natural numbers (0 = cpu).
-/

/-- A 2-D torch tensor: row-major data plus a device tag. -/
structure Tensor where
  data : List (List ℚ)
  dev : Nat
deriving DecidableEq, Repr

/-- `x.to(device)`: move a tensor to a device; values unchanged. -/
def Tensor.to (x : Tensor) (d : Nat) : Tensor := ⟨x.data, d⟩

/-- `x.t()`: transpose of a 2-D tensor. -/
def Tensor.t (x : Tensor) : Tensor := ⟨x.data.transpose, x.dev⟩

/-- `x.contiguous()`: identity on values. -/
def Tensor.contiguous (x : Tensor) : Tensor := x

/-- A 1-D torch tensor: data plus a device tag. -/
structure Tensor1 where
  data : List ℚ
  dev : Nat
deriving DecidableEq, Repr

/-- `x.to(device)` for a 1-D tensor. -/
def Tensor1.to (x : Tensor1) (d : Nat) : Tensor1 := ⟨x.data, d⟩

/-- `x.t()` on a tensor of dimension < 2 is the identity (torch semantics). -/
def Tensor1.t (x : Tensor1) : Tensor1 := x

/-- Python/torch indexing `xs[i]` on a 1-D sequence of length `n`:
a negative index `i` with `-n ≤ i` addresses `xs[n + i]`; an index outside
`[-n, n)` raises (modelled as `none`). -/
def pyIndex (xs : List ℚ) (i : Int) : Option ℚ :=
  let n : Int := xs.length
  let j : Int := if i < 0 then i + n else i
  if 0 ≤ j ∧ j < n then xs.get? j.toNat else none

/-- Python/torch item assignment `xs[i] = v` with the same index semantics
as `pyIndex`; out-of-range raises (modelled as `none`). -/
def pySet (xs : List ℚ) (i : Int) (v : ℚ) : Option (List ℚ) :=
  let n : Int := xs.length
  let j : Int := if i < 0 then i + n else i
  if 0 ≤ j ∧ j < n then some (xs.set j.toNat v) else none

/-- `format_scores(scores, true_index, device)` from `listener/utils.py`:
```
score_length = scores.size(0)
true_tensor = scores[true_index].repeat(score_length)
binary = torch.ones(score_length).to(device)
return true_tensor.t(), scores.t(), binary
```
`scores[true_index]` raises on an index outside `[-K, K)`. -/
def format_scores (scores : Tensor1) (true_index : Int) (device : Nat) :
    Option (Tensor1 × Tensor1 × Tensor1) :=
  let score_length := scores.data.length
  match pyIndex scores.data true_index with
  | none => none
  | some v =>
      let true_tensor : Tensor1 := ⟨List.replicate score_length v, scores.dev⟩
      let binary : Tensor1 := (⟨List.replicate score_length 1, 0⟩ : Tensor1).to device
      some (true_tensor.t, scores.t, binary)

/-- `format_scores_reg(scores, true_index, device)` from `listener/utils.py`:
```
target = - torch.ones(scores.size())
target[true_index] = 1
target = target.to(device)
return scores, target
```
-/
def format_scores_reg (scores : Tensor1) (true_index : Int) (device : Nat) :
    Option (Tensor1 × Tensor1) :=
  let target0 : List ℚ := List.replicate scores.data.length (-1)
  match pySet target0 true_index 1 with
  | none => none
  | some tgt => some (scores, (⟨tgt, 0⟩ : Tensor1).to device)

/-- The two input shapes accepted by `collate_sgs`:
a Python `list` whose elements are `(node, pair, edge)` triples of
singleton-wrapped tensors, or a Python `tuple` `(nodes, pair_idx, edges)`
of three per-sample sequences. -/
inductive Sgs where
  | ofList : List (List Tensor × List Tensor × List Tensor) → Sgs
  | ofTuple : List Tensor → List Tensor → List Tensor → Sgs
deriving DecidableEq, Repr

/-- Python `zip` over three sequences: truncates to the shortest. -/
def zip3 {α β γ : Type} : List α → List β → List γ → List (α × β × γ)
  | a :: as, b :: bs, c :: cs => (a, b, c) :: zip3 as bs cs
  | _, _, _ => []

/-- The `isinstance(sgs, list)` branch of `collate_sgs`: for each
`(node, pair, edge)` take `pair[0].t().contiguous().to(device)`,
`node[0].to(device)`, `edge[0].to(device)`; `[0]` on an empty wrapper
raises (`none`). -/
def collateList : List (List Tensor × List Tensor × List Tensor) → Nat →
    Option (List (Tensor × Tensor × Tensor))
  | [], _ => some []
  | (node, pair, edge) :: rest, device =>
      match pair.head?, node.head?, edge.head? with
      | some p, some n, some e =>
          match collateList rest device with
          | some out => some ((n.to device, ((p.t).contiguous).to device, e.to device) :: out)
          | none => none
      | _, _, _ => none

/-- The `isinstance(sgs, tuple)` branch of `collate_sgs`: zip the three
columns and process each `(node, pair, edge)` sample. -/
def collateTuple : List (Tensor × Tensor × Tensor) → Nat → List (Tensor × Tensor × Tensor)
  | [], _ => []
  | (node, pair, edge) :: rest, device =>
      (node.to device, ((pair.t).contiguous).to device, edge.to device)
        :: collateTuple rest device

/-- `collate_sgs(sgs, device)` from `listener/utils.py`. -/
def collate_sgs (sgs : Sgs) (device : Nat) : Option (List (Tensor × Tensor × Tensor)) :=
  match sgs with
  | .ofList l => collateList l device
  | .ofTuple nodes pair_idx edges => some (collateTuple (zip3 nodes pair_idx edges) device)

/-- Lookup in a Python dict modelled as an association list:
later entries overwrite earlier ones (last-write-wins). -/
def dictGet {α : Type} : List (Nat × α) → Nat → Option α
  | [], _ => none
  | (k, v) :: rest, key =>
      match dictGet rest key with
      | some v2 => some v2
      | none => if k = key then some v else none

/-- The list comprehension `[predictions[i] for i in image_ids]`;
a missing key raises `KeyError` (`none`). -/
def getAll {α : Type} (d : List (Nat × α)) : List Nat → Option (List α)
  | [] => some []
  | i :: is =>
      match dictGet d i, getAll d is with
      | some v, some vs => some (v :: vs)
      | _, _ => none

/-- `list(sorted(predictions.keys()))`: the distinct keys in ascending order. -/
def sortedKeys {α : Type} (predictions : List (Nat × α)) : List Nat :=
  List.insertionSort (· ≤ ·) ((predictions.map Prod.fst).dedup)

/-- `_accumulate_predictions_from_multiple_gpus(predictions_per_gpu, synchronize_gather)`
from `engine/inference.py`.  `all_gathered` is the result of the collective
`all_gather(predictions_per_gpu)` used when `synchronize_gather` is false.
Returns `none` on an uncaught exception; otherwise `some (r, warn)` where `r`
is the Python return value (`none` = Python `None`, returned on non-main
processes) and `warn` records whether the contiguity warning was logged. -/
def accumulate_predictions_from_multiple_gpus {α : Type} (is_main : Bool)
    (synchronize_gather : Bool) (predictions_per_gpu : List (Nat × α))
    (all_gathered : List (List (Nat × α))) : Option (Option (List α) × Bool) :=
  if is_main = false then some (none, false)
  else
    let predictions := if synchronize_gather then predictions_per_gpu else all_gathered.flatten
    let image_ids := sortedKeys predictions
    match image_ids.getLast? with
    | none => none
    | some last =>
        match getAll predictions image_ids with
        | none => none
        | some vals => some (some vals, decide (image_ids.length ≠ last + 1))

/-- Return value of the detector-mode driver `inference`: the sentinel
`-1.0` on non-main processes, or the opaque result of
`evaluate(..., predictions, ...)` — modelled by the predictions handed to
the external scorer. -/
inductive InfOut (α : Type) where
  | sentinel : InfOut α
  | evalResult : List α → InfOut α
deriving DecidableEq, Repr

/-- The driver `inference(...)` from `engine/inference.py`, with the I/O
and collective context as parameters: `load_cache` is
`cfg.TEST.ALLOW_LOAD_FROM_CACHE and output_folder is not None and os.path.exists(...)`,
`cached` the `'predictions'` entry of the cache file, `computed` the results
dictionary produced by `compute_on_dataset`, and `all_gathered` the
collective gather used by the accumulator when `sync` is false. -/
def inference {α : Type} (is_main : Bool) (load_cache : Bool) (sync : Bool)
    (cached : List α) (computed : List (Nat × α))
    (all_gathered : List (List (Nat × α))) : Option (InfOut α) :=
  if load_cache then
    if is_main = false then some .sentinel else some (.evalResult cached)
  else
    match accumulate_predictions_from_multiple_gpus is_main sync computed all_gathered with
    | none => none
    | some (popt, _) =>
        if is_main = false then some .sentinel
        else
          match popt with
          | some preds => some (.evalResult preds)
          | none => none

/-- `loss_sum = sum(predictions); loss_mean = loss_sum / (len(predictions) - 3)`:
the tail of `listener_inference`; division by zero raises (`none`). -/
def lossMean (preds : List ℚ) : Option ℚ :=
  if preds.length = 3 then none
  else some (preds.sum / ((preds.length : ℚ) - 3))

/-- The driver `listener_inference(...)` from `engine/inference.py`, with
the same parameterisation of context as `inference`; predictions are the
per-sample scalar listener losses. -/
def listener_inference (is_main : Bool) (load_cache : Bool) (sync : Bool)
    (cached : List ℚ) (computed : List (Nat × ℚ))
    (all_gathered : List (List (Nat × ℚ))) : Option ℚ :=
  if load_cache then
    if is_main = false then some (-1) else lossMean cached
  else
    match accumulate_predictions_from_multiple_gpus is_main sync computed all_gathered with
    | none => none
    | some (popt, _) =>
        if is_main = false then some (-1)
        else
          match popt with
          | some preds => lossMean preds
          | none => none

/-! ## Helper lemmas -/

theorem dictGet_isSome {α : Type} : ∀ (d : List (Nat × α)) (k : Nat),
    (dictGet d k).isSome ↔ k ∈ d.map Prod.fst := by
  intro d k
  induction d with
  | nil => simp [dictGet]
  | cons kv rest ih =>
      cases hrest : dictGet rest k with
      | some v2 =>
          have hk : k ∈ rest.map Prod.fst := ih.mp (by simp [hrest])
          simp [dictGet, hrest, hk]
      | none =>
          have hnot : k ∉ rest.map Prod.fst := fun hm => by
            have := ih.mpr hm
            simp [hrest] at this
          by_cases hk : kv.1 = k
          · simp [dictGet, hrest, hk]
          · simp [dictGet, hrest, hk, hnot, Ne.symm hk]

theorem getAll_spec {α : Type} (d : List (Nat × α)) :
    ∀ l : List Nat, (∀ i ∈ l, (dictGet d i).isSome) →
      ∃ vals, getAll d l = some vals ∧ vals.length = l.length ∧
        ∀ j : Nat, vals[j]? = l[j]?.bind (dictGet d) := by
  intro l
  induction l with
  | nil => exact fun _ => ⟨[], rfl, rfl, fun j => by simp [getAll]⟩
  | cons i rest ih =>
      intro h
      obtain ⟨v, hv⟩ : ∃ v, dictGet d i = some v :=
        Option.isSome_iff_exists.mp (h i (by simp))
      obtain ⟨vals, hvals, hlen, hget⟩ := ih (fun x hx => h x (by simp [hx]))
      refine ⟨v :: vals, by simp [getAll, hv, hvals], by simp [hlen], ?_⟩
      intro j
      cases j with
      | zero => simp [hv]
      | succ m => simpa using hget m

theorem sortedKeys_eq_sort {α : Type} (preds : List (Nat × α)) :
    sortedKeys preds = Finset.sort (· ≤ ·) ((preds.map Prod.fst).toFinset) := by
  have hperm := List.perm_insertionSort (· ≤ ·) (preds.map Prod.fst).dedup
  have hnd : (List.insertionSort (· ≤ ·) (preds.map Prod.fst).dedup).Nodup :=
    hperm.nodup_iff.mpr (List.nodup_dedup _)
  have hsorted : List.Sorted (· ≤ ·) (List.insertionSort (· ≤ ·) (preds.map Prod.fst).dedup) :=
    List.sorted_insertionSort _ _
  have h1 : Finset.sort (· ≤ ·)
        ((List.insertionSort (· ≤ ·) (preds.map Prod.fst).dedup).toFinset)
      = List.insertionSort (· ≤ ·) (preds.map Prod.fst).dedup :=
    (List.toFinset_sort (· ≤ ·) hnd).mpr hsorted
  have h2 : (List.insertionSort (· ≤ ·) (preds.map Prod.fst).dedup).toFinset
      = (preds.map Prod.fst).toFinset := by
    rw [List.toFinset_eq_of_perm _ _ hperm]
    exact List.toFinset.ext (fun x => List.mem_dedup)
  have h3 : Finset.sort (· ≤ ·) ((preds.map Prod.fst).toFinset)
      = List.insertionSort (· ≤ ·) (preds.map Prod.fst).dedup := by
    rw [← h2]; exact h1
  unfold sortedKeys
  rw [h3]

theorem accumulate_main_sync_eq {α : Type} (preds : List (Nat × α))
    (gathered : List (List (Nat × α))) :
    accumulate_predictions_from_multiple_gpus true true preds gathered =
      match (sortedKeys preds).getLast? with
      | none => none
      | some last =>
          match getAll preds (sortedKeys preds) with
          | none => none
          | some vals => some (some vals, decide ((sortedKeys preds).length ≠ last + 1)) := rfl

theorem zip3_map {α β γ δ : Type} (f : α → β) (g : α → γ) (k : α → δ) :
    ∀ l : List α, zip3 (l.map f) (l.map g) (l.map k) = l.map (fun x => (f x, g x, k x)) := by
  intro l
  induction l with
  | nil => rfl
  | cons a as ih => simp [zip3, List.map_cons, ih]

theorem collateList_singletons (d : Nat) :
    ∀ batch : List (Tensor × Tensor × Tensor),
      collateList (batch.map (fun x => ([x.1], [x.2.1], [x.2.2]))) d
        = some (collateTuple batch d) := by
  intro batch
  induction batch with
  | nil => rfl
  | cons x xs ih =>
      obtain ⟨n, p, e⟩ := x
      simp [collateList, collateTuple, ih]

theorem set_replicate_eq_map (n ti : Nat) :
    (List.replicate n (-1 : ℚ)).set ti 1
      = (List.range n).map (fun j => if j = ti then (1 : ℚ) else -1) := by
  apply List.ext_get
  · simp
  · intro i h1 h2
    simp only [List.get_eq_getElem, List.getElem_set, List.getElem_replicate,
      List.getElem_map, List.getElem_range]
    by_cases hi : i = ti
    · simp [hi]
    · simp [hi, Ne.symm hi]

/-! ## Claims -/

/-- C9: collating an empty input sequence (an empty Python list) yields an
empty output sequence and raises no error. -/
theorem collate_sgs_empty (d : Nat) : collate_sgs (Sgs.ofList []) d = some [] := rfl

/-- C3: a batch given once in list shape (each element a triple of
singleton-wrapped tensors) and once in columnar tuple shape with the same
content collates to identical output sequences. -/
theorem collate_sgs_shape_equiv (batch : List (Tensor × Tensor × Tensor)) (d : Nat) :
    collate_sgs (Sgs.ofList (batch.map (fun x => ([x.1], [x.2.1], [x.2.2])))) d =
    collate_sgs (Sgs.ofTuple (batch.map (fun x => x.1)) (batch.map (fun x => x.2.1))
        (batch.map (fun x => x.2.2))) d := by
  simp only [collate_sgs]
  rw [collateList_singletons d batch, zip3_map]
  have hid : batch.map (fun x => (x.1, x.2.1, x.2.2)) = batch := by
    simp
  rw [hid]

/-- C10: on the main process, an empty merged predictions dictionary makes
the accumulator fail (indexing the empty sorted-keys list at position -1)
rather than return a result. -/
theorem accumulate_empty_fails {α : Type} (gathered : List (List (Nat × α))) :
    accumulate_predictions_from_multiple_gpus true true ([] : List (Nat × α)) gathered
      = none := rfl

/-- C6: a worker that is not the main process gets the sentinel `-1.0` from
both top-level drivers, for every cache/synchronization configuration. -/
theorem non_main_process_sentinel {α : Type} (load_cache sync : Bool)
    (cached : List α) (computed : List (Nat × α)) (gathered : List (List (Nat × α)))
    (cachedQ : List ℚ) (computedQ : List (Nat × ℚ))
    (gatheredQ : List (List (Nat × ℚ))) :
    inference false load_cache sync cached computed gathered = some .sentinel ∧
    listener_inference false load_cache sync cachedQ computedQ gatheredQ = some (-1) := by
  cases load_cache <;> exact ⟨rfl, rfl⟩

/-- C7: for a valid `true_index`, `format_scores` returns the score at
`true_index` repeated K times (on the scores' device), the scores vector
unchanged, and an all-ones vector of length K on the target device. -/
theorem format_scores_valid_spec (scores : Tensor1) (ti : Nat) (d : Nat)
    (h : ti < scores.data.length) :
    format_scores scores (ti : Int) d =
      some (⟨List.replicate scores.data.length (scores.data.get ⟨ti, h⟩), scores.dev⟩,
            scores,
            ⟨List.replicate scores.data.length 1, d⟩) := by
  have hpy : pyIndex scores.data (ti : Int) = some (scores.data.get ⟨ti, h⟩) := by
    simp only [pyIndex]
    have h0 : ¬ ((ti : Int) < 0) := by omega
    rw [if_neg h0, if_pos (by constructor <;> omega)]
    rw [Int.toNat_natCast]
    exact List.get?_eq_get h
  simp only [format_scores, hpy, Tensor1.t, Tensor1.to]

/-- C7 witness: `scores = [0.2, 0.9, 0.5]`, `true_index = 1` gives
`([0.9, 0.9, 0.9], [0.2, 0.9, 0.5], [1, 1, 1])`. -/
theorem format_scores_valid_spec_witness :
    format_scores ⟨[1/5, 9/10, 1/2], 0⟩ 1 2 =
      some (⟨[9/10, 9/10, 9/10], 0⟩, ⟨[1/5, 9/10, 1/2], 0⟩, ⟨[1, 1, 1], 2⟩) := by
  have h := format_scores_valid_spec ⟨[1/5, 9/10, 1/2], 0⟩ 1 2 (by decide)
  simpa using h

/-- C8: for a valid `true_index`, `format_scores_reg` returns the scores
unchanged and a target of length K that is `-1` everywhere except `+1`
at `true_index`. -/
theorem format_scores_reg_spec (scores : Tensor1) (ti : Nat) (d : Nat)
    (h : ti < scores.data.length) :
    format_scores_reg scores (ti : Int) d =
      some (scores,
        ⟨(List.range scores.data.length).map (fun j => if j = ti then 1 else -1), d⟩) := by
  have hset : pySet (List.replicate scores.data.length (-1)) (ti : Int) 1
      = some ((List.replicate scores.data.length (-1 : ℚ)).set ti 1) := by
    simp only [pySet, List.length_replicate]
    have h0 : ¬ ((ti : Int) < 0) := by omega
    rw [if_neg h0, if_pos (by constructor <;> omega)]
    rw [Int.toNat_natCast]
  simp only [format_scores_reg, hset, set_replicate_eq_map, Tensor1.to]

/-- C8 witness: `scores` of length 4, `true_index = 2` gives target
`[-1, -1, 1, -1]`. -/
theorem format_scores_reg_spec_witness :
    format_scores_reg ⟨[1, 2, 3, 4], 0⟩ 2 0 =
      some (⟨[1, 2, 3, 4], 0⟩, ⟨[-1, -1, 1, -1], 0⟩) := by
  have h := format_scores_reg_spec ⟨[1, 2, 3, 4], 0⟩ 2 0 (by decide)
  simpa using h

/-- C4 counterexample: `true_index = -1` satisfies the claim's hypothesis
(`true_index < 0`), yet `format_scores` does not raise — torch tensors
accept negative indices, so `scores[-1]` reads the last entry. -/
theorem format_scores_negative_index_counterexample :
    (((-1 : Int) < 0 ∨ (-1 : Int) ≥ 1) ∧
      format_scores ⟨[(1 : ℚ)], 0⟩ (-1) 0 ≠ none) := by
  decide

/-- C4 (amended): `format_scores` is a fatal, unrecovered indexing error
exactly for `true_index ≥ K` or `true_index < -K`; indices in `[-K, 0)`
are accepted by torch negative indexing. -/
theorem format_scores_invalid_index_raises (scores : Tensor1) (true_index : Int)
    (d : Nat)
    (h : true_index ≥ (scores.data.length : Int) ∨
         true_index < -(scores.data.length : Int)) :
    format_scores scores true_index d = none := by
  have hpy : pyIndex scores.data true_index = none := by
    simp only [pyIndex]
    by_cases h0 : true_index < 0
    · rw [if_pos h0, if_neg (by omega)]
    · rw [if_neg h0, if_neg (by omega)]
  simp only [format_scores, hpy]

/-- C4 witness: `true_index = 5` on a length-1 scores vector raises. -/
theorem format_scores_invalid_index_raises_witness :
    format_scores ⟨[(1 : ℚ)], 0⟩ 5 0 = none :=
  format_scores_invalid_index_raises ⟨[(1 : ℚ)], 0⟩ 5 0 (by decide)


/-- C1: on the main process, for a merged dictionary with non-empty key set
the accumulator succeeds, warns exactly when the maximum key plus 1 differs
from the number of distinct keys, and in every case returns the values in
sorted-key order (missing indices compact the sequence). -/
theorem accumulate_gap_warning {α : Type} (preds : List (Nat × α))
    (gathered : List (List (Nat × α)))
    (hne : ((preds.map Prod.fst).toFinset).Nonempty) :
    ∃ vals warn,
      accumulate_predictions_from_multiple_gpus true true preds gathered
          = some (some vals, warn) ∧
      (warn = true ↔
        ((preds.map Prod.fst).toFinset).max' hne + 1
          ≠ ((preds.map Prod.fst).toFinset).card) ∧
      vals.length = ((preds.map Prod.fst).toFinset).card ∧
      ∀ j : Nat, vals[j]?
          = (Finset.sort (· ≤ ·) ((preds.map Prod.fst).toFinset))[j]?.bind
              (dictGet preds) := by
  set S := (preds.map Prod.fst).toFinset with hS
  set ks := Finset.sort (· ≤ ·) S with hks
  have hkeys : sortedKeys preds = ks := sortedKeys_eq_sort preds
  have hlen : ks.length = S.card := Finset.length_sort _
  have hcard : 0 < S.card := Finset.card_pos.mpr hne
  have hksne : ks ≠ [] := by
    intro hnil
    rw [hnil] at hlen
    simp at hlen
    omega
  have hlast : ks.getLast? = some (S.max' hne) := by
    rw [List.getLast?_eq_getLast_of_ne_nil hksne]
    congr 1
    rw [List.getLast_eq_getElem]
    exact Finset.sorted_last_eq_max'_aux S
      (by rw [← hks]; exact Nat.sub_lt (List.length_pos.mpr hksne) Nat.one_pos) hne
  have hdom : ∀ i ∈ ks, (dictGet preds i).isSome := by
    intro i hi
    rw [dictGet_isSome]
    have hiS : i ∈ S := by
      rw [hks] at hi
      exact (Finset.mem_sort (· ≤ ·)).mp hi
    rw [hS] at hiS
    exact List.mem_toFinset.mp hiS
  obtain ⟨vals, hvals, hvlen, hvget⟩ := getAll_spec preds ks hdom
  refine ⟨vals, decide (ks.length ≠ S.max' hne + 1), ?_, ?_, ?_, ?_⟩
  · rw [accumulate_main_sync_eq, hkeys, hlast, hvals]
  · rw [decide_eq_true_iff, hlen]
    exact ne_comm
  · rw [hvlen, hlen]
  · exact hvget

/-- C2: when the merged key set is exactly `{0, ..., N-1}` with `N > 0`,
the accumulator returns a length-N sequence with `result[i]` the prediction
stored under key `i`, and emits no warning. -/
theorem accumulate_contiguous {α : Type} (N : Nat) (hN : 0 < N)
    (preds : List (Nat × α)) (gathered : List (List (Nat × α)))
    (hkeys : (preds.map Prod.fst).toFinset = Finset.range N) :
    ∃ vals,
      accumulate_predictions_from_multiple_gpus true true preds gathered
          = some (some vals, false) ∧
      vals.length = N ∧
      ∀ i : Nat, i < N → vals[i]? = dictGet preds i := by
  have hsk : sortedKeys preds = List.range N := by
    rw [sortedKeys_eq_sort, hkeys, Finset.sort_range]
  have hlast : (List.range N).getLast? = some (N - 1) := by
    cases N with
    | zero => omega
    | succ m => rw [List.range_succ, List.getLast?_concat]
                simp
  have hdom : ∀ i ∈ List.range N, (dictGet preds i).isSome := by
    intro i hi
    rw [dictGet_isSome]
    have hmem : i ∈ (preds.map Prod.fst).toFinset := by
      rw [hkeys]
      simpa using hi
    exact List.mem_toFinset.mp hmem
  obtain ⟨vals, hvals, hvlen, hvget⟩ := getAll_spec preds (List.range N) hdom
  refine ⟨vals, ?_, by simp [hvlen], ?_⟩
  · rw [accumulate_main_sync_eq, hsk, hlast, hvals]
    simp [List.length_range, Nat.sub_add_cancel hN]
  · intro i hi
    rw [hvget i, List.getElem?_range hi]
    rfl

/-- C5: in listener mode, on the main process with no cached result, the
driver returns `sum(predictions) / (len(predictions) - 3)` for the
accumulated predictions. -/
theorem listener_inference_mean_loss (sync : Bool) (cached : List ℚ)
    (computed : List (Nat × ℚ)) (gathered : List (List (Nat × ℚ)))
    (preds : List ℚ) (warn : Bool)
    (hacc : accumulate_predictions_from_multiple_gpus true sync computed gathered
        = some (some preds, warn))
    (hlen : preds.length ≠ 3) :
    listener_inference true false sync cached computed gathered
      = some (preds.sum / ((preds.length : ℚ) - 3)) := by
  simp only [listener_inference, hacc, lossMean, Bool.false_eq_true, if_false, hlen,
    Bool.true_eq_false, ite_false]

/-- C1 witness: merged keys `{0, 1, 3}` warn and compact to the length-3
sequence `[10, 20, 30]` of the predictions for keys 0, 1, 3 in order. -/
theorem accumulate_gap_warning_witness :
    (accumulate_predictions_from_multiple_gpus true true
        [(0, 10), (1, 20), (3, 30)] ([] : List (List (Nat × Nat)))
      = some (some [10, 20, 30], true)) ∧
    (∃ vals warn,
      accumulate_predictions_from_multiple_gpus true true
          [(0, 10), (1, 20), (3, 30)] ([] : List (List (Nat × Nat)))
          = some (some vals, warn) ∧
      (warn = true ↔
        (([((0 : Nat), (10 : Nat)), (1, 20), (3, 30)].map Prod.fst).toFinset).max'
            (by decide) + 1
          ≠ (([((0 : Nat), (10 : Nat)), (1, 20), (3, 30)].map Prod.fst).toFinset).card) ∧
      vals.length
          = (([((0 : Nat), (10 : Nat)), (1, 20), (3, 30)].map Prod.fst).toFinset).card ∧
      ∀ j : Nat, vals[j]?
          = (Finset.sort (· ≤ ·)
              (([((0 : Nat), (10 : Nat)), (1, 20), (3, 30)].map Prod.fst).toFinset))[j]?.bind
              (dictGet [(0, 10), (1, 20), (3, 30)])) :=
  ⟨by decide, accumulate_gap_warning [(0, 10), (1, 20), (3, 30)] [] (by decide)⟩

/-- C2 witness: keys `{0, 1}` give `[10, 20]` with no warning. -/
theorem accumulate_contiguous_witness :
    ∃ vals,
      accumulate_predictions_from_multiple_gpus true true
          [(0, 10), (1, 20)] ([] : List (List (Nat × Nat)))
          = some (some vals, false) ∧
      vals.length = 2 ∧
      ∀ i : Nat, i < 2 → vals[i]? = dictGet [(0, 10), (1, 20)] i :=
  accumulate_contiguous 2 (by decide) [(0, 10), (1, 20)] [] (by decide)

/-- C5 witness: predictions `[1, 2]` give `(1+2) / (2-3) = -3`. -/
theorem listener_inference_mean_loss_witness :
    listener_inference true false true [] [(0, 1), (1, 2)] [] = some (-3) := by
  have h := listener_inference_mean_loss true [] [(0, 1), (1, 2)] [] [1, 2] false
    (by decide) (by decide)
  rw [h]
  norm_num
